import Mathlib

set_option maxRecDepth 8192

/-!
# Verification of the Control-Surface MIDI message model and transports

Shallow embedding of the MIDI message model (`MIDI_MessageTypes.hpp`), the
USB and serial transport send paths (`USBMIDI_Interface.hpp`,
`SerialMIDI_Interface.hpp`), and the parsers, followed by theorems about
them.  Machine bytes (`uint8_t`) are modelled as `Nat` with explicit
`% 256` wherever C++ narrowing or overflow can occur.
-/

namespace ControlSurface

/-! ## Message model (`MIDI_MessageTypes.hpp`) -/

/-- `ChannelMessage` from `MIDI_MessageTypes.hpp`: header byte (status:
message-type nibble + channel nibble), two data bytes, USB cable number.
All four fields are `uint8_t` in the source, modelled as `Nat`. -/
structure ChannelMessage where
  header : Nat
  data1 : Nat
  data2 : Nat
  cable : Nat
deriving Repr, DecidableEq

/-- `ChannelMessage::getMessageType`: `header & 0xF0`. -/
def ChannelMessage.getMessageType (m : ChannelMessage) : Nat :=
  m.header &&& 0xF0

/-- `ChannelMessage::getChannel`: `header & 0x0F`. -/
def ChannelMessage.getChannel (m : ChannelMessage) : Nat :=
  m.header &&& 0x0F

/-- `ChannelMessage::operator==`: field-wise comparison of `header`,
`data1`, `data2` and `cable`. -/
def ChannelMessage.beq (a b : ChannelMessage) : Bool :=
  a.header == b.header && a.data1 == b.data1 &&
  a.data2 == b.data2 && a.cable == b.cable

/-- `ChannelMessage::operator!=`: `!(*this == other)`. -/
def ChannelMessage.bne (a b : ChannelMessage) : Bool :=
  ! a.beq b

/-- `MIDIMessageType::CONTROL_CHANGE` (= `CC`) is `0xB0`;
`MIDIMessageType::PITCH_BEND` is `0xE0`; `NOTE_OFF` is `0x80`.
`ChannelMessage::hasTwoDataBytes` compares the `uint8_t` enum values:
`type <= CONTROL_CHANGE || type == PITCH_BEND`. -/
def ChannelMessage.hasTwoDataBytes (m : ChannelMessage) : Bool :=
  m.getMessageType ≤ 0xB0 || m.getMessageType == 0xE0

/-- `ChannelMessage::hasValidHeader`:
`type >= NOTE_OFF && type <= PITCH_BEND` on the `uint8_t` enum values. -/
def ChannelMessage.hasValidHeader (m : ChannelMessage) : Bool :=
  0x80 ≤ m.getMessageType && m.getMessageType ≤ 0xE0

/-- `ChannelMessage::setData1`: `data1 = data`. -/
def ChannelMessage.setData1 (m : ChannelMessage) (data : Nat) : ChannelMessage :=
  { m with data1 := data }

/-- The one-argument overload `ChannelMessage::getData2(uint8_t data)`:
its body is `data2 = data;` — it assigns the `data2` field and returns
`void`.  Modelled as returning the updated record. -/
def ChannelMessage.getData2Set (m : ChannelMessage) (data : Nat) : ChannelMessage :=
  { m with data2 := data }

/-- `SysExMessage` from `MIDI_MessageTypes.hpp`: a view into a buffer.
The `data` pointer is modelled as the list of bytes it points to.
The `length` field is declared `uint8_t` in the source. -/
structure SysExMessage where
  data : List Nat
  length : Nat
  cable : Nat
deriving Repr, DecidableEq

/-- The constructor `SysExMessage(const uint8_t *data, size_t length,
uint8_t cable)`: initializing the `uint8_t` member `length` from a
`size_t` argument narrows it modulo 256. -/
def SysExMessage.make (data : List Nat) (length : Nat) (cable : Nat) : SysExMessage :=
  ⟨data, length % 256, cable % 256⟩

/-- `SysExMessage::operator==`: compares `length`, `cable`, and
`memcmp(this->data, other.data, length)`, i.e. the first `length` stored
bytes of each buffer. -/
def SysExMessage.beq (a b : SysExMessage) : Bool :=
  a.length == b.length && a.cable == b.cable &&
  a.data.take a.length == b.data.take a.length

/-! ## USB transport send path (`USBMIDI_Interface.hpp`) -/

/-- A 4-byte USB MIDI event packet. -/
structure Packet where
  byte0 : Nat
  byte1 : Nat
  byte2 : Nat
  byte3 : Nat
deriving Repr, DecidableEq, Inhabited

/-- `USBMIDI_Interface::writeUSBPacket(cn, cin, d0, d1, d2)` (USBCON
variant): builds the packet `{uint8_t((cn << 4) | cin), d0, d1, d2}`.
The first byte is narrowed to `uint8_t`. -/
def writeUSBPacket (cn cin d0 d1 d2 : Nat) : Packet :=
  ⟨((cn <<< 4) ||| cin) % 256, d0, d1, d2⟩

/-- `USBMIDI_Interface::sendImpl(uint8_t m, uint8_t c, uint8_t d1,
uint8_t d2, uint8_t cn)`: writes one packet
`writeUSBPacket(cn, m >> 4, m | c, d1, d2)`. -/
def usbSendImpl3 (m c d1 d2 cn : Nat) : List Packet :=
  [writeUSBPacket cn (m >>> 4) (m ||| c) d1 d2]

/-- `USBMIDI_Interface::sendImpl(uint8_t m, uint8_t c, uint8_t d1,
uint8_t cn)`: forwards to the five-argument overload with `d2 = 0`. -/
def usbSendImpl2 (m c d1 cn : Nat) : List Packet :=
  usbSendImpl3 m c d1 0 cn

/-- `USBMIDI_Interface::sendImpl(const uint8_t *data, size_t length,
uint8_t cn)`: while `length > 3` emit a CIN `0x4` (SysEx
start/continue) packet with three payload bytes, then a final packet
with CIN `0x7`/`0x6`/`0x5` for 3/2/1 remaining bytes; nothing for 0. -/
def usbSendSysEx (data : List Nat) (cn : Nat) : List Packet :=
  match data with
  | [] => []
  | [a] => [writeUSBPacket cn 0x5 a 0 0]
  | [a, b] => [writeUSBPacket cn 0x6 a b 0]
  | [a, b, c] => [writeUSBPacket cn 0x7 a b c]
  | a :: b :: c :: rest => writeUSBPacket cn 0x4 a b c :: usbSendSysEx rest cn

/-- `USBMIDI_Interface::sendImpl(uint8_t rt, uint8_t cn)`: one packet
with CIN `0xF` (single byte) carrying the real-time byte. -/
def usbSendRealTime (rt cn : Nat) : List Packet :=
  [writeUSBPacket cn 0xF rt 0 0]

/-- The code index number nibble of a packet: low nibble of byte 0. -/
def Packet.cin (p : Packet) : Nat := p.byte0 &&& 0x0F

/-- The cable number nibble of a packet: high nibble of byte 0. -/
def Packet.cn (p : Packet) : Nat := p.byte0 >>> 4

/-- The three payload bytes of a packet. -/
def Packet.payload (p : Packet) : List Nat := [p.byte1, p.byte2, p.byte3]

/-! ## Serial transport send path (`SerialMIDI_Interface.hpp`) -/

/-- `StreamMIDI_Interface::sendImpl(uint8_t header, uint8_t d1,
uint8_t d2, uint8_t cn)`: writes `header`, `d1`, `d2` to the stream;
the cable number is discarded (`(void)cn`). -/
def serialSendImpl3 (header d1 d2 _cn : Nat) : List Nat :=
  [header, d1, d2]

/-- `StreamMIDI_Interface::sendImpl(uint8_t header, uint8_t d1,
uint8_t cn)`: writes `header`, `d1`; the cable number is discarded. -/
def serialSendImpl2 (header d1 _cn : Nat) : List Nat :=
  [header, d1]

/-! ## Parse events and parsers

The parser classes (`SerialMIDI_Parser`, `USBMIDI_Parser`) are not part of
the sources at hand; they are modelled from the specification (§3, §4.1,
§4.2). -/

/-- `RealTimeMessage` from `MIDI_MessageTypes.hpp`: a status byte plus
cable number. -/
structure RealTimeMessage where
  message : Nat
  cable : Nat
deriving Repr, DecidableEq

/-- Modelled from the spec: the parse result / event (§3) — the tagged
outcome of feeding one byte or packet into a parser; one of no message,
channel message complete, SysEx complete, SysEx chunk continues, or
real-time message complete.  (The parser classes themselves are not in
the sources at hand.) -/
inductive MIDIReadEvent where
  | noMessage
  | channelMessage (msg : ChannelMessage)
  | sysExChunk (msg : SysExMessage)
  | sysExMessage (msg : SysExMessage)
  | realTimeMessage (msg : RealTimeMessage)
deriving Repr, DecidableEq

/-- Modelled from the spec: `SYSEX_BUFFER_SIZE`, "a compile-time constant
describing the largest SysEx the device can buffer" (§3).  Its defining
header is not in the sources at hand; the concrete value is irrelevant
to the theorems below, which are proved for the constant symbolically or
parametrically. -/
def SYSEX_BUFFER_SIZE : Nat := 64

/-- Whether a channel-voice status byte announces two data bytes (same
categorization as `ChannelMessage::hasTwoDataBytes`). -/
def statusTwoDataBytes (s : Nat) : Bool :=
  (s &&& 0xF0) ≤ 0xB0 || (s &&& 0xF0) == 0xE0

/-- Modelled from the spec: the states of the byte-stream parser (§4.1):
`Idle`, `ChannelMessage1`/`ChannelMessage2` (waiting for the 1st/2nd
data byte), `SysExBody` (accumulating SysEx data). -/
inductive SerialPhase where
  | idle
  | channelMessage1
  | channelMessage2 (d1 : Nat)
  | sysExBody (buf : List Nat)
deriving Repr, DecidableEq

/-- Modelled from the spec: the byte-stream parser state (§4.1): the
phase plus the orthogonal running-status register (0 when no running
status is set; channel-voice status bytes are never 0). -/
structure SerialParser where
  phase : SerialPhase
  runningStatus : Nat
deriving Repr, DecidableEq

/-- A freshly constructed byte-stream parser: idle, no running status. -/
def SerialParser.fresh : SerialParser := ⟨.idle, 0⟩

/-- Modelled from the spec: one transition of the byte-stream parser
state machine (§4.1, `SerialMIDI_Parser` is not in the sources at hand):
real-time bytes pass through without disturbing state; channel-voice
status bytes start a new message and set running status; data bytes
accumulate under the running status (supporting running-status
shorthand) or into the SysEx buffer with chunking at
`SYSEX_BUFFER_SIZE`; System Common bytes cancel running status; anything
unexpected is discarded silently.  Serial transports carry no cable
number, so produced messages have cable 0. -/
def parseSerialByte (p : SerialParser) (b : Nat) : SerialParser × MIDIReadEvent :=
  if 0xF8 ≤ b then
    (p, .realTimeMessage ⟨b, 0⟩)
  else if 0xF0 ≤ b then
    if b = 0xF0 then
      (⟨.sysExBody [], 0⟩, .noMessage)
    else if b = 0xF7 then
      match p.phase with
      | .sysExBody buf => (⟨.idle, 0⟩, .sysExMessage (SysExMessage.make buf buf.length 0))
      | _ => (⟨.idle, 0⟩, .noMessage)
    else if b = 0xF6 then
      (⟨.idle, 0⟩, .realTimeMessage ⟨b, 0⟩)
    else
      (⟨.idle, 0⟩, .noMessage)
  else if 0x80 ≤ b then
    (⟨.channelMessage1, b⟩, .noMessage)
  else
    match p.phase with
    | .sysExBody buf =>
      let buf' := buf ++ [b]
      if SYSEX_BUFFER_SIZE ≤ buf'.length then
        (⟨.sysExBody [], p.runningStatus⟩,
         .sysExChunk (SysExMessage.make buf' buf'.length 0))
      else
        (⟨.sysExBody buf', p.runningStatus⟩, .noMessage)
    | .channelMessage2 d1 =>
      (⟨.idle, p.runningStatus⟩,
       .channelMessage ⟨p.runningStatus, d1, b, 0⟩)
    | _ =>
      if p.runningStatus = 0 then
        (⟨.idle, 0⟩, .noMessage)
      else if statusTwoDataBytes p.runningStatus then
        (⟨.channelMessage2 b, p.runningStatus⟩, .noMessage)
      else
        (⟨.idle, p.runningStatus⟩,
         .channelMessage ⟨p.runningStatus, b, 0, 0⟩)

/-- `StreamMIDI_Interface::read`: while bytes are available, feed one
byte to the parser; return the first event that is not `NO_MESSAGE`;
return `NO_MESSAGE` once the stream is exhausted.  The byte stream is
modelled as the list of currently available bytes; the result carries
the event, the parser state after the call, and the unconsumed bytes. -/
def serialRead (p : SerialParser) (input : List Nat) :
    MIDIReadEvent × SerialParser × List Nat :=
  match input with
  | [] => (.noMessage, p, [])
  | b :: rest =>
    let pr := parseSerialByte p b
    if pr.2 = .noMessage then serialRead pr.1 rest
    else (pr.2, pr.1, rest)

/-- Modelled from the spec: the packet-oriented parser state (§4.2,
`USBMIDI_Parser` is not in the sources at hand): each active cable's
SysEx accumulation is tracked independently, as an association list from
cable number to accumulated bytes. -/
structure USBParser where
  buffers : List (Nat × List Nat)
deriving Repr, DecidableEq

/-- A freshly constructed packet parser: no SysEx accumulation. -/
def USBParser.fresh : USBParser := ⟨[]⟩

/-- The SysEx accumulation buffer of one cable. -/
def USBParser.getBuf (p : USBParser) (cn : Nat) : List Nat :=
  match p.buffers.lookup cn with
  | some buf => buf
  | none => []

/-- Replace the SysEx accumulation buffer of one cable. -/
def USBParser.setBuf (p : USBParser) (cn : Nat) (buf : List Nat) : USBParser :=
  ⟨(cn, buf) :: p.buffers.filter (fun e => e.1 ≠ cn)⟩

/-- Modelled from the spec: one transition of the packet-oriented parser
(§4.2, `USBMIDI_Parser` is not in the sources at hand).  Byte 0 carries
the cable number (high nibble) and code index number (low nibble); the
CIN selects whether the packet is a complete channel message
(CIN 0x8–0xE, header/data1/data2 in the payload), a SysEx
start/continue chunk (CIN 0x4, three payload bytes accumulated per
cable), a SysEx end (CIN 0x5/0x6/0x7 with 1/2/3 trailing bytes), or a
single-byte message (CIN 0xF); other CINs are discarded. -/
def parseUSBPacket (p : USBParser) (pkt : Packet) : USBParser × MIDIReadEvent :=
  let cn := (pkt.byte0 % 256) >>> 4
  let cin := pkt.byte0 &&& 0x0F
  if cin = 0x4 then
    let buf := p.getBuf cn ++ [pkt.byte1, pkt.byte2, pkt.byte3]
    if SYSEX_BUFFER_SIZE < buf.length + 3 then
      (p.setBuf cn [], .sysExChunk (SysExMessage.make buf buf.length cn))
    else
      (p.setBuf cn buf, .noMessage)
  else if cin = 0x5 then
    let buf := p.getBuf cn ++ [pkt.byte1]
    (p.setBuf cn [], .sysExMessage (SysExMessage.make buf buf.length cn))
  else if cin = 0x6 then
    let buf := p.getBuf cn ++ [pkt.byte1, pkt.byte2]
    (p.setBuf cn [], .sysExMessage (SysExMessage.make buf buf.length cn))
  else if cin = 0x7 then
    let buf := p.getBuf cn ++ [pkt.byte1, pkt.byte2, pkt.byte3]
    (p.setBuf cn [], .sysExMessage (SysExMessage.make buf buf.length cn))
  else if 0x8 ≤ cin ∧ cin ≤ 0xE then
    (p, .channelMessage ⟨pkt.byte1, pkt.byte2, pkt.byte3, cn⟩)
  else if cin = 0xF then
    (p, .realTimeMessage ⟨pkt.byte1, cn⟩)
  else
    (p, .noMessage)

/-- `USBMIDI_Interface::read` loop body, with explicit fuel: up to
`fuel` iterations, read the next packet; if its header byte is zero (no
packet available) return `NO_MESSAGE`; otherwise parse it and return the
parse result if it is not `NO_MESSAGE`; after `fuel` iterations return
`NO_MESSAGE`.  The packet source is modelled as a list; reading from an
exhausted source yields the all-zero packet, i.e. a zero header byte. -/
def usbReadAux : Nat → USBParser → List Packet →
    MIDIReadEvent × USBParser × List Packet
  | 0, p, pkts => (.noMessage, p, pkts)
  | _ + 1, p, [] => (.noMessage, p, [])
  | fuel + 1, p, pkt :: rest =>
    if pkt.byte0 = 0 then (.noMessage, p, rest)
    else
      let pr := parseUSBPacket p pkt
      if pr.2 = .noMessage then usbReadAux fuel pr.1 rest
      else (pr.2, pr.1, rest)

/-- `USBMIDI_Interface::read`: the loop runs at most
`(SYSEX_BUFFER_SIZE + 2) / 3` iterations. -/
def usbRead (p : USBParser) (pkts : List Packet) :
    MIDIReadEvent × USBParser × List Packet :=
  usbReadAux ((SYSEX_BUFFER_SIZE + 2) / 3) p pkts

/-! ## Message dispatch (modelled from the spec) -/

/-- Modelled from the spec: the interface-level channel-message send
(§4.3, the dispatching `MIDI_Interface::send` is not in the sources at
hand) serializes "channel messages as status+data" — it passes the
message-type nibble, channel, data byte(s) and cable to the transport's
`sendImpl`, choosing the two- or three-byte overload by the message
type's data-byte count.  USB transport. -/
def sendChannelMessageUSB (msg : ChannelMessage) : List Packet :=
  if msg.hasTwoDataBytes then
    usbSendImpl3 msg.getMessageType msg.getChannel msg.data1 msg.data2 msg.cable
  else
    usbSendImpl2 msg.getMessageType msg.getChannel msg.data1 msg.cable

/-- Modelled from the spec: the interface-level channel-message send for
the serial transport (§4.3); the serial `sendImpl` overloads take the
complete status byte. -/
def sendChannelMessageSerial (msg : ChannelMessage) : List Nat :=
  if msg.hasTwoDataBytes then
    serialSendImpl3 msg.header msg.data1 msg.data2 msg.cable
  else
    serialSendImpl2 msg.header msg.data1 msg.cable

/-! ## Helper lemmas -/

/-- Packing two nibbles into a byte and unpacking them again. -/
lemma nibble_pack : ∀ cn, cn < 16 → ∀ x, x < 16 →
    (cn <<< 4) ||| x < 256 ∧
    ((cn <<< 4) ||| x) &&& 0x0F = x ∧
    ((cn <<< 4) ||| x) >>> 4 = cn ∧
    (8 ≤ x → (cn <<< 4) ||| x ≠ 0) := by decide

/-- Facts about a byte whose high nibble is a channel-voice type:
recombining its nibbles gives the byte back, the byte lies in
`[0x80, 0xF0)`, and the high nibble read as a CIN lies in `[0x8, 0xE]`. -/
lemma header_facts : ∀ h, h < 256 →
    0x80 ≤ h &&& 0xF0 → h &&& 0xF0 ≤ 0xE0 →
    ((h &&& 0xF0) ||| (h &&& 0x0F)) = h ∧
    0x80 ≤ h ∧ h < 0xF0 ∧
    8 ≤ (h &&& 0xF0) >>> 4 ∧ (h &&& 0xF0) >>> 4 ≤ 0xE ∧
    (h &&& 0xF0) >>> 4 < 16 := by decide

/-- The data-byte-count categorization of `hasTwoDataBytes`, characterised
per high nibble, for bytes with a valid channel-voice high nibble. -/
lemma twoDataBytes_characterisation : ∀ h, h < 256 →
    0x80 ≤ h &&& 0xF0 → h &&& 0xF0 ≤ 0xE0 →
    (((h &&& 0xF0) ≤ 0xB0 || (h &&& 0xF0) == 0xE0) = true ↔
      (h &&& 0xF0 = 0x80 ∨ h &&& 0xF0 = 0x90 ∨ h &&& 0xF0 = 0xA0 ∨
       h &&& 0xF0 = 0xB0 ∨ h &&& 0xF0 = 0xE0)) := by decide

/-- The `hasValidHeader` test, characterised as membership of the high
nibble in the seven channel-voice status values. -/
lemma validHeader_characterisation : ∀ h, h < 256 →
    ((decide (0x80 ≤ h &&& 0xF0) && decide (h &&& 0xF0 ≤ 0xE0)) = true ↔
      (h &&& 0xF0 = 0x80 ∨ h &&& 0xF0 = 0x90 ∨ h &&& 0xF0 = 0xA0 ∨
       h &&& 0xF0 = 0xB0 ∨ h &&& 0xF0 = 0xC0 ∨ h &&& 0xF0 = 0xD0 ∨
       h &&& 0xF0 = 0xE0)) := by decide

/-! ## Claim theorems -/

/-- **C3.** For every `ChannelMessage` with a valid channel-voice header,
`hasTwoDataBytes()` returns `true` exactly for Note Off (0x8), Note On
(0x9), Key Pressure (0xA), Control Change (0xB) and Pitch Bend (0xE),
and `false` for Program Change (0xC) and Channel Pressure (0xD). -/
theorem hasTwoDataBytes_spec (m : ChannelMessage)
    (hh : m.header < 256) (hv : m.hasValidHeader = true) :
    (m.hasTwoDataBytes = true ↔
      (m.getMessageType = 0x80 ∨ m.getMessageType = 0x90 ∨
       m.getMessageType = 0xA0 ∨ m.getMessageType = 0xB0 ∨
       m.getMessageType = 0xE0)) ∧
    ((m.getMessageType = 0xC0 ∨ m.getMessageType = 0xD0) →
      m.hasTwoDataBytes = false) := by
  have hv' := hv
  simp only [ChannelMessage.hasValidHeader, ChannelMessage.getMessageType,
    Bool.and_eq_true, decide_eq_true_eq] at hv'
  have hchar := twoDataBytes_characterisation m.header hh hv'.1 hv'.2
  constructor
  · simpa [ChannelMessage.hasTwoDataBytes, ChannelMessage.getMessageType]
      using hchar
  · intro hat
    simp only [ChannelMessage.getMessageType] at hat
    simp only [ChannelMessage.hasTwoDataBytes, ChannelMessage.getMessageType]
    rcases hat with hat | hat <;> simp [hat]

/-- Witness for `hasTwoDataBytes_spec` at a Pitch Bend message. -/
theorem hasTwoDataBytes_spec_witness :
    ((⟨0xE3, 1, 2, 0⟩ : ChannelMessage).hasTwoDataBytes = true ↔
      ((⟨0xE3, 1, 2, 0⟩ : ChannelMessage).getMessageType = 0x80 ∨
       (⟨0xE3, 1, 2, 0⟩ : ChannelMessage).getMessageType = 0x90 ∨
       (⟨0xE3, 1, 2, 0⟩ : ChannelMessage).getMessageType = 0xA0 ∨
       (⟨0xE3, 1, 2, 0⟩ : ChannelMessage).getMessageType = 0xB0 ∨
       (⟨0xE3, 1, 2, 0⟩ : ChannelMessage).getMessageType = 0xE0)) ∧
    (((⟨0xE3, 1, 2, 0⟩ : ChannelMessage).getMessageType = 0xC0 ∨
      (⟨0xE3, 1, 2, 0⟩ : ChannelMessage).getMessageType = 0xD0) →
      (⟨0xE3, 1, 2, 0⟩ : ChannelMessage).hasTwoDataBytes = false) :=
  hasTwoDataBytes_spec ⟨0xE3, 1, 2, 0⟩ (by decide) (by decide)

/-- **C6.** `hasValidHeader()` returns `true` iff the high nibble of the
header byte is one of the seven channel-voice types, i.e. `header & 0xF0`
lies in `{0x80, 0x90, 0xA0, 0xB0, 0xC0, 0xD0, 0xE0}`. -/
theorem hasValidHeader_spec (m : ChannelMessage) (hh : m.header < 256) :
    m.hasValidHeader = true ↔
      (m.getMessageType = 0x80 ∨ m.getMessageType = 0x90 ∨
       m.getMessageType = 0xA0 ∨ m.getMessageType = 0xB0 ∨
       m.getMessageType = 0xC0 ∨ m.getMessageType = 0xD0 ∨
       m.getMessageType = 0xE0) := by
  have := validHeader_characterisation m.header hh
  simpa [ChannelMessage.hasValidHeader, ChannelMessage.getMessageType]
    using this

/-- Witness for `hasValidHeader_spec` at header `0x95`. -/
theorem hasValidHeader_spec_witness :
    (⟨0x95, 0, 0, 0⟩ : ChannelMessage).hasValidHeader = true ↔
      ((⟨0x95, 0, 0, 0⟩ : ChannelMessage).getMessageType = 0x80 ∨
       (⟨0x95, 0, 0, 0⟩ : ChannelMessage).getMessageType = 0x90 ∨
       (⟨0x95, 0, 0, 0⟩ : ChannelMessage).getMessageType = 0xA0 ∨
       (⟨0x95, 0, 0, 0⟩ : ChannelMessage).getMessageType = 0xB0 ∨
       (⟨0x95, 0, 0, 0⟩ : ChannelMessage).getMessageType = 0xC0 ∨
       (⟨0x95, 0, 0, 0⟩ : ChannelMessage).getMessageType = 0xD0 ∨
       (⟨0x95, 0, 0, 0⟩ : ChannelMessage).getMessageType = 0xE0) :=
  hasValidHeader_spec ⟨0x95, 0, 0, 0⟩ (by decide)

/-- **C7.** `operator==` on `ChannelMessage` is `true` exactly when the
`header`, `data1`, `data2` and `cable` fields are pairwise equal, and
`operator!=` returns its negation.  The struct has no other fields, so
equality depends on nothing else. -/
theorem channelMessage_eq_spec (a b : ChannelMessage) :
    (a.beq b = true ↔
      (a.header = b.header ∧ a.data1 = b.data1 ∧
       a.data2 = b.data2 ∧ a.cable = b.cable)) ∧
    a.bne b = ! a.beq b := by
  constructor
  · simp [ChannelMessage.beq, and_assoc]
  · rfl

/-- **C9.** `SysExMessage` stores its length in a `uint8_t` field while
the constructor accepts a `size_t`: constructing with length `n` stores
`n mod 256`, so for `n ≥ 256` the stored length differs from the
argument, and `operator==` compares the truncated values (two messages
constructed from the same buffer with lengths `n` and `n mod 256`
compare equal). -/
theorem sysExMessage_length_truncation (data : List Nat) (n cable : Nat)
    (hn : 256 ≤ n) :
    (SysExMessage.make data n cable).length = n % 256 ∧
    (SysExMessage.make data n cable).length ≠ n ∧
    (SysExMessage.make data n cable).beq
      (SysExMessage.make data (n % 256) cable) = true := by
  refine ⟨rfl, ?_, ?_⟩
  · simp only [SysExMessage.make]
    have : n % 256 < 256 := Nat.mod_lt _ (by omega)
    omega
  · simp [SysExMessage.make, SysExMessage.beq, Nat.mod_mod_of_dvd]

/-- Witness for `sysExMessage_length_truncation` at `n = 300`. -/
theorem sysExMessage_length_truncation_witness :
    (SysExMessage.make [1, 2, 3] 300 0).length = 300 % 256 ∧
    (SysExMessage.make [1, 2, 3] 300 0).length ≠ 300 ∧
    (SysExMessage.make [1, 2, 3] 300 0).beq
      (SysExMessage.make [1, 2, 3] (300 % 256) 0) = true :=
  sysExMessage_length_truncation [1, 2, 3] 300 0 (by decide)

/-- **C10.** The one-argument overload `getData2(uint8_t)` is a mutator:
it assigns its argument to `data2` (returning `void`) and leaves
`header`, `data1` and `cable` unchanged. -/
theorem getData2_overload_is_mutator (m : ChannelMessage) (d : Nat) :
    (m.getData2Set d).data2 = d ∧
    (m.getData2Set d).header = m.header ∧
    (m.getData2Set d).data1 = m.data1 ∧
    (m.getData2Set d).cable = m.cable :=
  ⟨rfl, rfl, rfl, rfl⟩

/-- The USB `read` loop returns `NO_MESSAGE` on an exhausted packet
source, for any remaining iteration count. -/
lemma usbReadAux_nil : ∀ (fuel : Nat) (q : USBParser),
    usbReadAux fuel q [] = (.noMessage, q, []) := by
  intro fuel q
  cases fuel <;> simp [usbReadAux]

/-- One USB `read` iteration on a packet with a zero header byte:
`NO_MESSAGE`, parser untouched. -/
lemma usbReadAux_zero_header (fuel : Nat) (q : USBParser) (pkt : Packet)
    (rest : List Packet) (h0 : pkt.byte0 = 0) :
    usbReadAux (fuel + 1) q (pkt :: rest) = (.noMessage, q, rest) := by
  simp [usbReadAux, h0]

/-- One USB `read` iteration on a packet whose parse completes a
message: that parse result is returned. -/
lemma usbReadAux_step (fuel : Nat) (q : USBParser) (pkt : Packet)
    (rest : List Packet) (h0 : pkt.byte0 ≠ 0)
    (h1 : (parseUSBPacket q pkt).2 ≠ .noMessage) :
    usbReadAux (fuel + 1) q (pkt :: rest) =
      ((parseUSBPacket q pkt).2, (parseUSBPacket q pkt).1, rest) := by
  simp [usbReadAux, h0, h1]

/-- One USB `read` iteration on a packet whose parse does not complete a
message: the loop continues on the rest. -/
lemma usbReadAux_cont (fuel : Nat) (q : USBParser) (pkt : Packet)
    (rest : List Packet) (h0 : pkt.byte0 ≠ 0)
    (h1 : (parseUSBPacket q pkt).2 = .noMessage) :
    usbReadAux (fuel + 1) q (pkt :: rest) =
      usbReadAux fuel (parseUSBPacket q pkt).1 rest := by
  simp [usbReadAux, h0, h1]

/-- **C4.** With no input available — an empty serial stream, an
exhausted USB packet source, or a USB packet whose header byte is zero —
`read()` returns `NO_MESSAGE` immediately and the parser state is
unchanged. -/
theorem read_no_input (p : SerialParser) (q : USBParser) (pkt : Packet)
    (rest : List Packet) (h0 : pkt.byte0 = 0) :
    serialRead p [] = (.noMessage, p, []) ∧
    usbRead q [] = (.noMessage, q, []) ∧
    usbRead q (pkt :: rest) = (.noMessage, q, rest) := by
  refine ⟨rfl, usbReadAux_nil _ q, ?_⟩
  unfold usbRead
  rw [show (SYSEX_BUFFER_SIZE + 2) / 3 = 21 + 1 from rfl]
  exact usbReadAux_zero_header 21 q pkt rest h0

/-- Witness for `read_no_input` at concrete parser states and a zero
packet. -/
theorem read_no_input_witness :
    serialRead .fresh [] = (.noMessage, .fresh, []) ∧
    usbRead .fresh [] = (.noMessage, .fresh, []) ∧
    usbRead .fresh [⟨0, 1, 2, 3⟩] = (.noMessage, .fresh, []) :=
  read_no_input .fresh .fresh ⟨0, 1, 2, 3⟩ [] rfl

/-- **C5.** A channel-message send over USB writes exactly one 4-byte
packet: byte 0 is `(cn << 4) | (m >> 4)` — so its code index number
nibble equals the status high nibble and its cable nibble equals `cn` —
byte 1 is `m | c`, byte 2 is `d1`, byte 3 is `d2`; the one-data-byte
overload writes the same packet with `d2 = 0`. -/
theorem usb_send_channel_packet (m c d1 d2 cn : Nat)
    (hm : m < 256) (hcn : cn < 16) :
    usbSendImpl3 m c d1 d2 cn =
      [⟨(cn <<< 4) ||| (m >>> 4), m ||| c, d1, d2⟩] ∧
    Packet.cin ⟨(cn <<< 4) ||| (m >>> 4), m ||| c, d1, d2⟩ = m >>> 4 ∧
    Packet.cn ⟨(cn <<< 4) ||| (m >>> 4), m ||| c, d1, d2⟩ = cn ∧
    usbSendImpl2 m c d1 cn = usbSendImpl3 m c d1 0 cn := by
  have hx : m >>> 4 < 16 := by
    simp only [Nat.shiftRight_eq_div_pow]
    omega
  obtain ⟨hlt, hand, hshift, -⟩ := nibble_pack cn hcn (m >>> 4) hx
  refine ⟨?_, ?_, ?_, rfl⟩
  · simp [usbSendImpl3, writeUSBPacket, Nat.mod_eq_of_lt hlt]
  · simpa [Packet.cin] using hand
  · simpa [Packet.cn] using hshift

/-- Witness for `usb_send_channel_packet` at a Note On on cable 3. -/
theorem usb_send_channel_packet_witness :
    usbSendImpl3 0x90 2 0x40 0x7F 3 =
      [⟨(3 <<< 4) ||| (0x90 >>> 4), 0x90 ||| 2, 0x40, 0x7F⟩] ∧
    Packet.cin ⟨(3 <<< 4) ||| (0x90 >>> 4), 0x90 ||| 2, 0x40, 0x7F⟩ =
      0x90 >>> 4 ∧
    Packet.cn ⟨(3 <<< 4) ||| (0x90 >>> 4), 0x90 ||| 2, 0x40, 0x7F⟩ = 3 ∧
    usbSendImpl2 0x90 2 0x40 3 = usbSendImpl3 0x90 2 0x40 0 3 :=
  usb_send_channel_packet 0x90 2 0x40 0x7F 3 (by decide) (by decide)

/-- A run of packets each of which has a nonzero header and parses
(sequentially from the given parser state) to `NO_MESSAGE`, i.e. input
that never completes a message. -/
def seqNoMsg : USBParser → List Packet → Bool
  | _, [] => true
  | q, pkt :: rest =>
    pkt.byte0 != 0 && (parseUSBPacket q pkt).2 == .noMessage &&
      seqNoMsg (parseUSBPacket q pkt).1 rest

/-- The USB `read` loop consumes at most `fuel` packets. -/
lemma usbReadAux_consumed : ∀ (fuel : Nat) (q : USBParser)
    (pkts : List Packet),
    pkts.length ≤ (usbReadAux fuel q pkts).2.2.length + fuel := by
  intro fuel
  induction fuel with
  | zero => intro q pkts; simp [usbReadAux]
  | succ n ih =>
    intro q pkts
    cases pkts with
    | nil => simp [usbReadAux]
    | cons pkt rest =>
      by_cases h0 : pkt.byte0 = 0
      · rw [usbReadAux_zero_header n q pkt rest h0]
        simp only [List.length_cons]
        omega
      · by_cases h1 : (parseUSBPacket q pkt).2 = .noMessage
        · rw [usbReadAux_cont n q pkt rest h0 h1]
          have := ih (parseUSBPacket q pkt).1 rest
          simp only [List.length_cons]
          omega
        · rw [usbReadAux_step n q pkt rest h0 h1]
          simp only [List.length_cons]
          omega

/-- If the first `fuel` packets all parse to `NO_MESSAGE`, the USB
`read` loop returns `NO_MESSAGE`. -/
lemma usbReadAux_all_noMessage : ∀ (fuel : Nat) (q : USBParser)
    (pkts : List Packet),
    seqNoMsg q (pkts.take fuel) = true →
    (usbReadAux fuel q pkts).1 = .noMessage := by
  intro fuel
  induction fuel with
  | zero => intro q pkts _; simp [usbReadAux]
  | succ n ih =>
    intro q pkts hseq
    cases pkts with
    | nil => simp [usbReadAux]
    | cons pkt rest =>
      simp only [List.take_succ_cons, seqNoMsg, Bool.and_eq_true,
        bne_iff_ne, ne_eq, beq_iff_eq] at hseq
      obtain ⟨⟨-, h1⟩, hrest⟩ := hseq
      by_cases h0 : pkt.byte0 = 0
      · rw [usbReadAux_zero_header n q pkt rest h0]
      · rw [usbReadAux_cont n q pkt rest h0 h1]
        exact ih _ rest hrest

/-- **C8.** A single `USBMIDI_Interface::read()` call consumes at most
`(SYSEX_BUFFER_SIZE + 2) / 3` USB packets, and if that many packets are
consumed without the parser completing a message the call returns
`NO_MESSAGE` even though further input may be pending. -/
theorem usb_read_bounded (q : USBParser) (pkts : List Packet) :
    pkts.length - (usbRead q pkts).2.2.length ≤
      (SYSEX_BUFFER_SIZE + 2) / 3 ∧
    (seqNoMsg q (pkts.take ((SYSEX_BUFFER_SIZE + 2) / 3)) = true →
      (usbRead q pkts).1 = .noMessage) := by
  constructor
  · have := usbReadAux_consumed ((SYSEX_BUFFER_SIZE + 2) / 3) q pkts
    unfold usbRead
    omega
  · intro hseq
    exact usbReadAux_all_noMessage _ q pkts hseq

/-- Witness for `usb_read_bounded`: 23 reserved-CIN packets (none of
which completes a message); the call consumes at most 22 of them and
reports `NO_MESSAGE` with the 23rd still pending. -/
theorem usb_read_bounded_witness :
    (List.replicate 23 (⟨1, 0, 0, 0⟩ : Packet)).length -
        (usbRead .fresh (List.replicate 23 ⟨1, 0, 0, 0⟩)).2.2.length ≤
      (SYSEX_BUFFER_SIZE + 2) / 3 ∧
    (usbRead .fresh (List.replicate 23 ⟨1, 0, 0, 0⟩)).1 = .noMessage :=
  ⟨(usb_read_bounded .fresh (List.replicate 23 ⟨1, 0, 0, 0⟩)).1,
   (usb_read_bounded .fresh (List.replicate 23 ⟨1, 0, 0, 0⟩)).2 (by decide)⟩

/-- Concatenation of the payload bytes of a packet sequence. -/
def packetsPayload : List Packet → List Nat
  | [] => []
  | p :: ps => p.payload ++ packetsPayload ps

/-- The CIN nibble written by `writeUSBPacket` is recovered by
`Packet.cin`. -/
lemma cin_writeUSBPacket (cn k a b c : Nat) (hcn : cn < 16) (hk : k < 16) :
    (writeUSBPacket cn k a b c).cin = k := by
  obtain ⟨hlt, hand, -, -⟩ := nibble_pack cn hcn k hk
  simp [writeUSBPacket, Packet.cin, Nat.mod_eq_of_lt hlt, hand]

/-- The SysEx send path emits `⌈n/3⌉` packets for an `n`-byte payload. -/
lemma sysex_send_length : ∀ (d : List Nat) (cn : Nat),
    (usbSendSysEx d cn).length = (d.length + 2) / 3
  | [], _ => by simp [usbSendSysEx]
  | [_], _ => by simp [usbSendSysEx]
  | [_, _], _ => by simp [usbSendSysEx]
  | [_, _, _], _ => by simp [usbSendSysEx]
  | a :: b :: c :: d :: rest, cn => by
    have ih := sysex_send_length (d :: rest) cn
    simp only [usbSendSysEx, List.length_cons] at ih ⊢
    omega

/-- The first `n` payload bytes of the emitted packets are the original
`n`-byte SysEx payload. -/
lemma sysex_send_payload : ∀ (d : List Nat) (cn : Nat),
    (packetsPayload (usbSendSysEx d cn)).take d.length = d
  | [], _ => by simp [usbSendSysEx, packetsPayload]
  | [a], cn => by
    simp [usbSendSysEx, packetsPayload, Packet.payload, writeUSBPacket]
  | [a, b], cn => by
    simp [usbSendSysEx, packetsPayload, Packet.payload, writeUSBPacket]
  | [a, b, c], cn => by
    simp [usbSendSysEx, packetsPayload, Packet.payload, writeUSBPacket]
  | a :: b :: c :: d :: rest, cn => by
    have ih := sysex_send_payload (d :: rest) cn
    simp only [usbSendSysEx, packetsPayload, Packet.payload, writeUSBPacket,
      List.length_cons, List.cons_append, List.nil_append,
      List.take_succ_cons, List.cons.injEq, true_and] at ih ⊢
    exact ih

/-- Payload bytes of the emitted packets beyond the original payload
length are padding zeros. -/
lemma sysex_send_padding : ∀ (d : List Nat) (cn : Nat),
    ∀ x ∈ (packetsPayload (usbSendSysEx d cn)).drop d.length, x = 0
  | [], _ => by simp [usbSendSysEx, packetsPayload]
  | [a], cn => by
    simp [usbSendSysEx, packetsPayload, Packet.payload, writeUSBPacket]
  | [a, b], cn => by
    simp [usbSendSysEx, packetsPayload, Packet.payload, writeUSBPacket]
  | [a, b, c], cn => by
    simp [usbSendSysEx, packetsPayload, Packet.payload, writeUSBPacket]
  | a :: b :: c :: d :: rest, cn => by
    have ih := sysex_send_padding (d :: rest) cn
    simpa only [usbSendSysEx, packetsPayload, Packet.payload, writeUSBPacket,
      List.length_cons, List.cons_append, List.nil_append,
      List.drop_succ_cons] using ih

/-- Every emitted packet except the last carries CIN `0x4`. -/
lemma sysex_send_cin_body (cn : Nat) (hcn : cn < 16) :
    ∀ (d : List Nat) (i : Nat),
    i + 1 < (usbSendSysEx d cn).length →
    ((usbSendSysEx d cn).getD i default).cin = 0x4
  | [], i, h => by simp [usbSendSysEx] at h
  | [_], i, h => by simp [usbSendSysEx] at h
  | [_, _], i, h => by simp [usbSendSysEx] at h
  | [_, _, _], i, h => by simp [usbSendSysEx] at h
  | a :: b :: c :: d :: rest, i, h => by
    cases i with
    | zero =>
      simpa [usbSendSysEx] using
        cin_writeUSBPacket cn 0x4 a b c hcn (by decide)
    | succ j =>
      simp only [usbSendSysEx, List.length_cons] at h
      simp only [usbSendSysEx, List.getD_cons_succ]
      exact sysex_send_cin_body cn hcn (d :: rest) j (by omega)

/-- The last emitted packet carries CIN `0x5`/`0x6`/`0x7` according to
the payload length modulo 3 (`1`/`2`/`0`). -/
lemma sysex_send_cin_last (cn : Nat) (hcn : cn < 16) :
    ∀ (d : List Nat), d ≠ [] →
    ((usbSendSysEx d cn).getD ((usbSendSysEx d cn).length - 1)
        default).cin =
      (if d.length % 3 = 1 then 0x5
       else if d.length % 3 = 2 then 0x6 else 0x7)
  | [], h => absurd rfl h
  | [a], _ => by
    simpa [usbSendSysEx] using
      cin_writeUSBPacket cn 0x5 a 0 0 hcn (by decide)
  | [a, b], _ => by
    simpa [usbSendSysEx] using
      cin_writeUSBPacket cn 0x6 a b 0 hcn (by decide)
  | [a, b, c], _ => by
    simpa [usbSendSysEx] using
      cin_writeUSBPacket cn 0x7 a b c hcn (by decide)
  | a :: b :: c :: d :: rest, _ => by
    have ih := sysex_send_cin_last cn hcn (d :: rest) (by simp)
    have hlen := sysex_send_length (d :: rest) cn
    have hpos : 1 ≤ (usbSendSysEx (d :: rest) cn).length := by
      rw [hlen]
      simp only [List.length_cons]
      omega
    obtain ⟨k, hk⟩ : ∃ k, (usbSendSysEx (d :: rest) cn).length = k + 1 :=
      ⟨(usbSendSysEx (d :: rest) cn).length - 1, by omega⟩
    simp only [usbSendSysEx, List.length_cons, hk] at ih ⊢
    have hmod : (rest.length + 1 + 1 + 1 + 1) % 3 = (rest.length + 1) % 3 := by
      omega
    simp only [hmod]
    simpa [List.getD_cons_succ, Nat.add_sub_cancel] using ih

/-- **C2.** For a SysEx payload of length `n` on cable `cn`, the USB
send path emits exactly `⌈n/3⌉` packets: every packet but the last
carries CIN `0x4` with three consecutive payload bytes, the last carries
CIN `0x7` if `n mod 3 = 0`, `0x6` if `n mod 3 = 2`, `0x5` if
`n mod 3 = 1`; the concatenated packet payloads, truncated to `n`,
equal the original payload and the bytes beyond `n` are zero padding;
for `n = 0` no packet is emitted. -/
theorem usb_sysex_send_spec (data : List Nat) (cn : Nat) (hcn : cn < 16) :
    (usbSendSysEx data cn).length = (data.length + 2) / 3 ∧
    (data = [] → usbSendSysEx data cn = []) ∧
    (∀ i, i + 1 < (usbSendSysEx data cn).length →
      ((usbSendSysEx data cn).getD i default).cin = 0x4) ∧
    (data ≠ [] →
      ((usbSendSysEx data cn).getD ((usbSendSysEx data cn).length - 1)
          default).cin =
        (if data.length % 3 = 1 then 0x5
         else if data.length % 3 = 2 then 0x6 else 0x7)) ∧
    (packetsPayload (usbSendSysEx data cn)).take data.length = data ∧
    (∀ x ∈ (packetsPayload (usbSendSysEx data cn)).drop data.length,
      x = 0) := by
  refine ⟨sysex_send_length data cn, ?_, ?_, ?_, sysex_send_payload data cn,
    sysex_send_padding data cn⟩
  · rintro rfl
    rfl
  · exact fun i h => sysex_send_cin_body cn hcn data i h
  · exact fun h => sysex_send_cin_last cn hcn data h

/-- Witness for `usb_sysex_send_spec` at the 4-byte payload
`[1, 2, 3, 4]` on cable 2: two packets, the first CIN `0x4`, the last
CIN `0x5`, payload reassembled, padding zero. -/
theorem usb_sysex_send_spec_witness :
    (usbSendSysEx [1, 2, 3, 4] 2).length = (4 + 2) / 3 ∧
    ((usbSendSysEx [1, 2, 3, 4] 2).getD 0 default).cin = 0x4 ∧
    ((usbSendSysEx [1, 2, 3, 4] 2).getD
        ((usbSendSysEx [1, 2, 3, 4] 2).length - 1) default).cin =
      (if ([1, 2, 3, 4] : List Nat).length % 3 = 1 then 0x5
       else if ([1, 2, 3, 4] : List Nat).length % 3 = 2 then 0x6
       else 0x7) ∧
    (packetsPayload (usbSendSysEx [1, 2, 3, 4] 2)).take 4 = [1, 2, 3, 4] ∧
    (0 : Nat) = 0 := by
  have h := usb_sysex_send_spec [1, 2, 3, 4] 2 (by decide)
  exact ⟨h.1, h.2.2.1 0 (by decide), h.2.2.2.1 (by decide),
    h.2.2.2.2.1, rfl⟩

/-- The packet parser on a packet whose CIN is a channel-voice type
(`0x8`–`0xE`): a complete channel message, parser state untouched. -/
lemma parseUSBPacket_channel (q : USBParser) (pkt : Packet)
    (hb : pkt.byte0 < 256) (h8 : 8 ≤ pkt.byte0 &&& 0x0F)
    (hE : pkt.byte0 &&& 0x0F ≤ 0xE) :
    parseUSBPacket q pkt =
      (q, .channelMessage ⟨pkt.byte1, pkt.byte2, pkt.byte3,
        pkt.byte0 >>> 4⟩) := by
  unfold parseUSBPacket
  rw [Nat.mod_eq_of_lt hb, if_neg (by omega), if_neg (by omega),
    if_neg (by omega), if_neg (by omega), if_pos ⟨h8, hE⟩]

/-- The byte-stream parser on a channel-voice status byte: enter
`ChannelMessage1`, set running status. -/
lemma parseSerialByte_status (p : SerialParser) (b : Nat)
    (h1 : 0x80 ≤ b) (h2 : b < 0xF0) :
    parseSerialByte p b = (⟨.channelMessage1, b⟩, .noMessage) := by
  unfold parseSerialByte
  rw [if_neg (by omega), if_neg (by omega), if_pos h1]

/-- The byte-stream parser on the first data byte of a two-data-byte
message: store it, wait for the second. -/
lemma parseSerialByte_data1_two (s b : Nat) (hb : b < 0x80) (hs0 : s ≠ 0)
    (hs : statusTwoDataBytes s = true) :
    parseSerialByte ⟨.channelMessage1, s⟩ b =
      (⟨.channelMessage2 b, s⟩, .noMessage) := by
  unfold parseSerialByte
  rw [if_neg (by omega), if_neg (by omega), if_neg (by omega)]
  simp [hs0, hs]

/-- The byte-stream parser on the only data byte of a one-data-byte
message: emit the completed channel message. -/
lemma parseSerialByte_data1_one (s b : Nat) (hb : b < 0x80) (hs0 : s ≠ 0)
    (hs : statusTwoDataBytes s = false) :
    parseSerialByte ⟨.channelMessage1, s⟩ b =
      (⟨.idle, s⟩, .channelMessage ⟨s, b, 0, 0⟩) := by
  unfold parseSerialByte
  rw [if_neg (by omega), if_neg (by omega), if_neg (by omega)]
  simp [hs0, hs]

/-- The byte-stream parser on the second data byte of a two-data-byte
message: emit the completed channel message. -/
lemma parseSerialByte_data2 (s d1 b : Nat) (hb : b < 0x80) :
    parseSerialByte ⟨.channelMessage2 d1, s⟩ b =
      (⟨.idle, s⟩, .channelMessage ⟨s, d1, b, 0⟩) := by
  unfold parseSerialByte
  rw [if_neg (by omega), if_neg (by omega), if_neg (by omega)]

/-- Reading a serialized two-data-byte channel message from a fresh
byte-stream parser yields that message (with cable 0). -/
lemma serialRead_channel_two (h d1 d2 : Nat) (hge : 0x80 ≤ h)
    (hlt : h < 0xF0) (hd1 : d1 < 0x80) (hd2 : d2 < 0x80)
    (htwo : statusTwoDataBytes h = true) :
    serialRead .fresh [h, d1, d2] =
      (.channelMessage ⟨h, d1, d2, 0⟩, ⟨.idle, h⟩, []) := by
  have h0 : h ≠ 0 := by omega
  simp [serialRead, parseSerialByte_status SerialParser.fresh h hge hlt,
    parseSerialByte_data1_two h d1 hd1 h0 htwo,
    parseSerialByte_data2 h d1 d2 hd2]

/-- Reading a serialized one-data-byte channel message from a fresh
byte-stream parser yields that message (with `data2 = 0`, cable 0). -/
lemma serialRead_channel_one (h d1 : Nat) (hge : 0x80 ≤ h)
    (hlt : h < 0xF0) (hd1 : d1 < 0x80)
    (hone : statusTwoDataBytes h = false) :
    serialRead .fresh [h, d1] =
      (.channelMessage ⟨h, d1, 0, 0⟩, ⟨.idle, h⟩, []) := by
  have h0 : h ≠ 0 := by omega
  simp [serialRead, parseSerialByte_status SerialParser.fresh h hge hlt,
    parseSerialByte_data1_one h d1 hd1 h0 hone]

/-- **C1 (amended).** For every valid `ChannelMessage` (valid
channel-voice header, 7-bit data bytes, cable 0–15) such that `data2 = 0`
whenever the message type has only one data byte: serializing over the
USB transport and parsing the produced packet yields an equal
`ChannelMessage` for any cable, and serializing over the serial
transport and parsing the produced bytes yields an equal
`ChannelMessage` provided the cable is 0 (the serial wire does not carry
the cable number). -/
theorem channel_roundtrip (msg : ChannelMessage)
    (hh : msg.header < 256) (hv : msg.hasValidHeader = true)
    (h1 : msg.data1 < 128) (h2 : msg.data2 < 128) (hc : msg.cable < 16)
    (hd : msg.hasTwoDataBytes = true ∨ msg.data2 = 0) :
    (usbRead .fresh (sendChannelMessageUSB msg)).1 = .channelMessage msg ∧
    (msg.cable = 0 →
      (serialRead .fresh (sendChannelMessageSerial msg)).1 =
        .channelMessage msg) := by
  obtain ⟨h, d1, d2, cb⟩ := msg
  simp only [ChannelMessage.hasValidHeader, ChannelMessage.getMessageType,
    Bool.and_eq_true, decide_eq_true_eq] at hv
  simp only at hh h1 h2 hc
  obtain ⟨hv1, hv2⟩ := hv
  obtain ⟨hrecomb, hge, hltF0, hcin8, hcinE, hcin16⟩ :=
    header_facts h hh hv1 hv2
  obtain ⟨blt, band, bshift, bne0⟩ :=
    nibble_pack cb hc ((h &&& 0xF0) >>> 4) hcin16
  -- the packet produced by the USB send path, in both dispatch branches
  have husb : ∀ d2' : Nat,
      usbSendImpl3 (h &&& 0xF0) (h &&& 0x0F) d1 d2' cb =
        [⟨(cb <<< 4) ||| ((h &&& 0xF0) >>> 4), h, d1, d2'⟩] := by
    intro d2'
    simp [usbSendImpl3, writeUSBPacket, Nat.mod_eq_of_lt blt, hrecomb]
  have hparse : ∀ d2' : Nat,
      parseUSBPacket .fresh
          ⟨(cb <<< 4) ||| ((h &&& 0xF0) >>> 4), h, d1, d2'⟩ =
        (.fresh, .channelMessage ⟨h, d1, d2', cb⟩) := by
    intro d2'
    rw [parseUSBPacket_channel .fresh _ blt (by rw [band]; exact hcin8)
      (by rw [band]; exact hcinE)]
    rw [bshift]
  have hread : ∀ d2' : Nat,
      usbRead .fresh [⟨(cb <<< 4) ||| ((h &&& 0xF0) >>> 4), h, d1, d2'⟩] =
        (.channelMessage ⟨h, d1, d2', cb⟩, .fresh, []) := by
    intro d2'
    unfold usbRead
    rw [show (SYSEX_BUFFER_SIZE + 2) / 3 = 21 + 1 from rfl]
    rw [usbReadAux_step 21 .fresh _ [] (bne0 hcin8)
      (by rw [hparse d2']; simp)]
    rw [hparse d2']
  have hstatus_eq : statusTwoDataBytes h =
      ChannelMessage.hasTwoDataBytes ⟨h, d1, d2, cb⟩ := rfl
  by_cases htwo : ChannelMessage.hasTwoDataBytes ⟨h, d1, d2, cb⟩ = true
  · constructor
    · rw [show sendChannelMessageUSB ⟨h, d1, d2, cb⟩ =
          usbSendImpl3 (h &&& 0xF0) (h &&& 0x0F) d1 d2 cb from by
        simp [sendChannelMessageUSB, htwo, ChannelMessage.getMessageType,
          ChannelMessage.getChannel]]
      rw [husb d2, hread d2]
    · intro hcb0
      subst hcb0
      rw [show sendChannelMessageSerial ⟨h, d1, d2, 0⟩ = [h, d1, d2] from by
        simp [sendChannelMessageSerial, htwo, serialSendImpl3]]
      rw [serialRead_channel_two h d1 d2 hge hltF0 h1 h2
        (hstatus_eq ▸ htwo)]
  · have hd2 : d2 = 0 := by
      rcases hd with hd | hd
      · exact absurd hd htwo
      · simpa using hd
    subst hd2
    constructor
    · rw [show sendChannelMessageUSB ⟨h, d1, 0, cb⟩ =
          usbSendImpl3 (h &&& 0xF0) (h &&& 0x0F) d1 0 cb from by
        simp [sendChannelMessageUSB, usbSendImpl2, htwo,
          ChannelMessage.getMessageType, ChannelMessage.getChannel]]
      rw [husb 0, hread 0]
    · intro hcb0
      subst hcb0
      rw [show sendChannelMessageSerial ⟨h, d1, 0, 0⟩ = [h, d1] from by
        simp [sendChannelMessageSerial, htwo, serialSendImpl2]]
      rw [serialRead_channel_one h d1 hge hltF0 h1
        (by rw [hstatus_eq]; simpa using htwo)]

/-- Witness for `channel_roundtrip` at a Note On (two data bytes) on
cable 0. -/
theorem channel_roundtrip_witness :
    (usbRead .fresh (sendChannelMessageUSB ⟨0x92, 0x40, 0x7F, 0⟩)).1 =
      .channelMessage ⟨0x92, 0x40, 0x7F, 0⟩ ∧
    (serialRead .fresh (sendChannelMessageSerial ⟨0x92, 0x40, 0x7F, 0⟩)).1 =
      .channelMessage ⟨0x92, 0x40, 0x7F, 0⟩ :=
  ⟨(channel_roundtrip ⟨0x92, 0x40, 0x7F, 0⟩ (by decide) (by decide)
      (by decide) (by decide) (by decide) (Or.inl (by decide))).1,
   (channel_roundtrip ⟨0x92, 0x40, 0x7F, 0⟩ (by decide) (by decide)
      (by decide) (by decide) (by decide) (Or.inl (by decide))).2 rfl⟩

/-- **C1 counterexample.** The claim as stated fails: for the valid
Program Change message with header `0xC0`, `data1 = 5`, `data2 = 7`,
cable 1, serializing and parsing does not return the original message on
either transport — the USB one-data-byte packet carries `data2 = 0`, and
the serial wire additionally drops the cable number. -/
theorem channel_roundtrip_counterexample :
    (⟨0xC0, 5, 7, 1⟩ : ChannelMessage).hasValidHeader = true ∧
    (⟨0xC0, 5, 7, 1⟩ : ChannelMessage).data1 < 128 ∧
    (⟨0xC0, 5, 7, 1⟩ : ChannelMessage).data2 < 128 ∧
    (usbRead .fresh (sendChannelMessageUSB ⟨0xC0, 5, 7, 1⟩)).1 ≠
      .channelMessage ⟨0xC0, 5, 7, 1⟩ ∧
    (serialRead .fresh (sendChannelMessageSerial ⟨0xC0, 5, 7, 1⟩)).1 ≠
      .channelMessage ⟨0xC0, 5, 7, 1⟩ := by
  decide

end ControlSurface
